import Mathlib

/-!
Verification of the Frosted_Launcher installer/launcher core (`launcher.py`).

This file gives a shallow embedding of the parts of `launcher.py` that carry
the installer's logic: the network fetcher (`download_file`), the install
steps (`install_python`, `install_git`, `install_requests`, `setup_game`),
the orchestration loop (`run_installation` inside
`LauncherApp.start_installation`), the configuration record
(`read_config` / `write_config`) and the stats store (`load_stats`,
`save_stats`, `update_stats`, `delete_save`).

Modelling conventions:
- operating-system errors the code does not handle explicitly (e.g. an
  `open` or `os.remove` call itself failing) are out of scope; the outcomes
  the code does branch on (network failures, HTTP statuses, subprocess exit
  codes, file existence) are inputs of the model;
- Python floats are modelled as exact rationals (`0.2` becomes `1/5`);
- each external effect (download, installer run, apt install, pip install,
  git clone) is recorded in an explicit action trace;
- progress reporting is the sequence of values assigned to the progress
  bar, in order (`update_progress` calls and download callbacks alike).
-/

namespace Frosted

/-- The two operating systems `launcher.py` distinguishes via
`platform.system().lower()`. -/
inductive OsKind
  | windows
  | linux
deriving DecidableEq

/-- One HTTP response as `download_file` observes it: the status code, the
`content-length` header (`response.headers.get('content-length', 0)`
defaults to `0` when the header is absent), the byte counts of the
successive `response.read(8192)` calls before the stream ends, and whether
the stream raises an exception after those chunks. -/
structure Response where
  status : Nat
  contentLengthHeader : Option Int
  chunks : List Nat
  midStreamError : Bool
deriving DecidableEq

/-- `total_size = int(response.headers.get('content-length', 0))`. -/
def totalSize (r : Response) : Int := r.contentLengthHeader.getD 0

/-- The running totals of the `downloaded` counter after each chunk, starting
from accumulator `acc`. -/
def prefixSumsFrom (acc : Nat) : List Nat → List Nat
  | [] => []
  | c :: cs => (acc + c) :: prefixSumsFrom (acc + c) cs

/-- The values of `downloaded` at each progress-callback site. -/
def prefixSums (l : List Nat) : List Nat := prefixSumsFrom 0 l

/-- The outcome of one `download_file` call: whether it returned `True`
(no exception), whether the destination path exists after the call, and the
sequence of percentages handed to `progress_callback`. -/
structure DownloadOutcome where
  ok : Bool
  destExists : Bool
  callbacks : List ℚ
deriving DecidableEq

/-- `download_file(url, file_path, progress_callback)`.  `resp = none`
models `urllib.request.urlopen` itself raising.  The `except` branch
removes `file_path` whenever it exists before re-raising, so after any
failure the destination is absent (even when a file of that name existed
before the call); after success the destination holds the streamed bytes.
`(downloaded / total_size) * 100` is passed to the callback after each
chunk, only when a callback was given and `total_size > 0`. -/
def download_file (resp : Option Response) (hasCallback : Bool) : DownloadOutcome :=
  match resp with
  | none => { ok := false, destExists := false, callbacks := [] }
  | some r =>
    if r.status ≠ 200 then { ok := false, destExists := false, callbacks := [] }
    else
      let total := totalSize r
      let cbs : List ℚ :=
        if hasCallback = true ∧ 0 < total then
          (prefixSums r.chunks).map (fun (d : Nat) => (d : ℚ) / (total : ℚ) * 100)
        else []
      if r.midStreamError then { ok := false, destExists := false, callbacks := cbs }
      else { ok := true, destExists := true, callbacks := cbs }

theorem download_file_destExists_eq_ok (resp : Option Response) (cb : Bool) :
    (download_file resp cb).destExists = (download_file resp cb).ok := by
  cases resp with
  | none => rfl
  | some r =>
    unfold download_file
    by_cases hs : r.status ≠ 200
    · simp [hs]
    · by_cases hm : r.midStreamError <;> simp [hs, hm]

/-- Claim C1: whenever `download_file` fails — the connection cannot be
opened, the status is not 200, or the stream raises mid-download — the
destination path does not exist after the call returns: the partial file is
deleted before the error is re-raised. -/
theorem download_file_failure_leaves_no_partial (resp : Option Response) (cb : Bool)
    (h : (download_file resp cb).ok = false) :
    (download_file resp cb).destExists = false := by
  rw [download_file_destExists_eq_ok, h]

/-- Witness for C1: a concrete 404 response fails and leaves no file. -/
theorem download_file_failure_leaves_no_partial_witness :
    (download_file (some ⟨404, some 10, [8192], false⟩) true).ok = false ∧
      (download_file (some ⟨404, some 10, [8192], false⟩) true).destExists = false :=
  ⟨by decide, download_file_failure_leaves_no_partial (some ⟨404, some 10, [8192], false⟩) true (by decide)⟩

/-- Claim C9: the progress callback is invoked only when the declared total
content length is positive.  When the `content-length` header is absent
(defaulted to 0), zero, or negative, `progress_callback` is never called,
so `(downloaded / total_size) * 100` is always guarded. -/
theorem download_file_callback_guard (r : Response) (cb : Bool) :
    (totalSize r ≤ 0 → (download_file (some r) cb).callbacks = []) ∧
      ((download_file (some r) cb).callbacks ≠ [] → 0 < totalSize r ∧ cb = true) := by
  constructor
  · intro h
    unfold download_file
    have : ¬ (cb = true ∧ 0 < totalSize r) := by
      rintro ⟨-, hpos⟩; omega
    by_cases hs : r.status ≠ 200
    · simp [hs]
    · by_cases hm : r.midStreamError <;> simp [hs, hm, this]
  · intro h
    by_contra hc
    have : ¬ (cb = true ∧ 0 < totalSize r) := by
      rintro ⟨h1, h2⟩; exact hc ⟨h2, h1⟩
    apply h
    unfold download_file
    by_cases hs : r.status ≠ 200
    · simp [hs]
    · by_cases hm : r.midStreamError <;> simp [hs, hm, this]

/-- Witness for C9: a 200 response with no `content-length` header and a
nonempty body produces no callback invocations. -/
theorem download_file_callback_guard_witness :
    totalSize ⟨200, none, [4096, 4096], false⟩ ≤ 0 ∧
      (download_file (some ⟨200, none, [4096, 4096], false⟩) true).callbacks = [] :=
  ⟨by decide, (download_file_callback_guard ⟨200, none, [4096, 4096], false⟩ true).1 (by decide)⟩

/-- The shape of `game_stats.json`: `total_deaths`, `total_time` and
`last_session` (an ISO timestamp string, or `None`). -/
structure StatsRecord where
  total_deaths : Int
  total_time : Int
  last_session : Option String
deriving DecidableEq

/-- The state of the stats file on disk: absent, present but failing JSON
decoding (`json.JSONDecodeError`), or holding a decoded record. -/
inductive StatsFile
  | absent
  | corrupt
  | record (r : StatsRecord)
deriving DecidableEq

/-- `load_stats()`: returns the parsed record when the file exists and
decodes, and the zeroed record `{'total_deaths': 0, 'total_time': 0,
'last_session': None}` when the file is missing or raises
`json.JSONDecodeError`; it never raises. -/
def load_stats : StatsFile → StatsRecord
  | .absent => { total_deaths := 0, total_time := 0, last_session := none }
  | .corrupt => { total_deaths := 0, total_time := 0, last_session := none }
  | .record r => r

/-- `save_stats(stats)`: rewrites the stats file with the given record. -/
def save_stats (r : StatsRecord) : StatsFile := .record r

/-- `update_stats(deaths=0, time_played=0)`: read-modify-write on the stats
file — load, add `deaths` to `total_deaths`, add `time_played` to
`total_time`, stamp `last_session` with the current time, save.  `now` is
`datetime.now().isoformat()`. -/
def update_stats (file : StatsFile) (deaths time_played : Int) (now : String) : StatsFile :=
  let stats := load_stats file
  let stats := { stats with total_deaths := stats.total_deaths + deaths }
  let stats := { stats with total_time := stats.total_time + time_played }
  let stats := { stats with last_session := some now }
  save_stats stats

/-- The outcome of `delete_save(install_dir)`: whether
`install_dir/snowcaller/save.json` exists afterwards, the resulting stats
file, the message shown, and the returned boolean. -/
structure DeleteSaveOutcome where
  saveExists : Bool
  stats : StatsFile
  message : String
  result : Bool
deriving DecidableEq

/-- `delete_save(install_dir)`: when the save file exists it is removed,
`update_stats(deaths=1)` records the death, and `True` is returned; when it
does not exist nothing is touched, "No save file found." is shown, and
`False` is returned. -/
def delete_save (saveExists : Bool) (stats : StatsFile) (now : String) : DeleteSaveOutcome :=
  if saveExists then
    { saveExists := false
      stats := update_stats stats 1 0 now
      message := "Save file deleted and death recorded."
      result := true }
  else
    { saveExists := false
      stats := stats
      message := "No save file found."
      result := false }

/-- Claim C5: `load_stats` never fails — on a missing or corrupt (JSON
decoding error) stats file it returns the zeroed record — and a subsequent
`update_stats` with `deaths = 1` persists `total_deaths = 1`. -/
theorem load_stats_zeroed_on_missing_or_corrupt (f : StatsFile) (now : String)
    (h : f = .absent ∨ f = .corrupt) :
    load_stats f = { total_deaths := 0, total_time := 0, last_session := none } ∧
      update_stats f 1 0 now =
        .record { total_deaths := 1, total_time := 0, last_session := some now } := by
  rcases h with h | h <;> subst h <;> exact ⟨rfl, rfl⟩

/-- Witness for C5: the concrete corrupt file. -/
theorem load_stats_zeroed_on_missing_or_corrupt_witness :
    load_stats .corrupt = { total_deaths := 0, total_time := 0, last_session := none } ∧
      update_stats .corrupt 1 0 "2026-10-12T00:00:00" =
        .record { total_deaths := 1, total_time := 0, last_session := some "2026-10-12T00:00:00" } :=
  load_stats_zeroed_on_missing_or_corrupt .corrupt "2026-10-12T00:00:00" (Or.inr rfl)

/-- Claim C8: with the save file absent, `delete_save` reports
"No save file found.", deletes nothing (the stats file is untouched, so the
death counter is unchanged), and returns `False`; with the save file
present it deletes the file, returns `True`, and the persisted
`total_deaths` grows by exactly 1. -/
theorem delete_save_spec (st : StatsFile) (now : String) :
    delete_save false st now =
        { saveExists := false, stats := st, message := "No save file found.", result := false } ∧
      (delete_save true st now).saveExists = false ∧
      (delete_save true st now).result = true ∧
      (delete_save true st now).message = "Save file deleted and death recorded." ∧
      (load_stats (delete_save true st now).stats).total_deaths =
        (load_stats st).total_deaths + 1 := by
  refine ⟨rfl, rfl, rfl, rfl, ?_⟩
  simp [delete_save, update_stats, save_stats, load_stats]

/-- Claim C10: every `update_stats` call — including death-only and
time-only updates — overwrites `last_session` with the current timestamp,
changes `total_deaths` by exactly `deaths` and `total_time` by exactly
`time_played`, and modifies nothing else: the saved record is fully
determined by the loaded record, the two deltas and the timestamp. -/
theorem update_stats_frame (f : StatsFile) (deaths time_played : Int) (now : String) :
    update_stats f deaths time_played now =
      .record
        { total_deaths := (load_stats f).total_deaths + deaths
          total_time := (load_stats f).total_time + time_played
          last_session := some now } := by
  rfl

/-- A primitive file operation `write_config` performs on the config file
`snowcaller/launcher_config.txt`. -/
inductive FsWriteOp
  | openTruncate
  | writeAll (s : String)
deriving DecidableEq

/-- The sequence of file operations the body of `write_config(install_dir)`
performs on the config file: `open(config_path, 'w')` truncates the file in
place, then `f.write(f"install_dir={install_dir}")` writes the record.
(The preceding `os.makedirs` touches only the directory, never the file;
there is no temporary file, no rename, and no fsync.) -/
def write_config_ops (install_dir : String) : List FsWriteOp :=
  [.openTruncate, .writeAll ("install_dir=" ++ install_dir)]

/-- Effect of one file operation on the config file's state (`none` =
absent, `some c` = present with content `c`). -/
def applyFsOp (file : Option String) (op : FsWriteOp) : Option String :=
  match op with
  | .openTruncate => some ""
  | .writeAll s => some ((file.getD "") ++ s)

/-- Every file state a concurrent reader could observe while a sequence of
file operations runs: the initial state followed by the state after each
operation. -/
def observableStates (init : Option String) (ops : List FsWriteOp) : List (Option String) :=
  ops.scanl applyFsOp init

/-- Modelled from the spec: "never partially written (write is atomic:
write-temp-then-rename or equivalent single fsynced write)" — a reader
racing an atomic write observes only the prior state or the final state,
nothing in between. -/
def AtomicWrite (init : Option String) (ops : List FsWriteOp) : Prop :=
  ∀ s ∈ observableStates init ops, s = init ∨ s = ops.foldl applyFsOp init

/-- Counterexample for C3: overwriting an existing record
`install_dir=/old` with `write_config("/new")` exposes the intermediate
truncated-empty file, which is neither the prior record nor the new one, so
the write is not atomic. -/
theorem write_config_not_atomic_cex :
    ¬ AtomicWrite (some "install_dir=/old") (write_config_ops "/new") := by
  intro h
  have := h (some "") (by simp [observableStates, write_config_ops, applyFsOp, List.scanl])
  simp [write_config_ops, applyFsOp, List.foldl] at this

/-- Claim C3 as amended: `write_config` writes the record with an in-place
truncate-then-write, not atomically; the states a concurrent reader can
observe are exactly the prior state, the truncated empty file, and the
complete new record — in particular a reader can see the empty intermediate
file. -/
theorem write_config_observable_states (init : Option String) (d : String)
    (s : Option String) (hs : s ∈ observableStates init (write_config_ops d)) :
    s = init ∨ s = some "" ∨ s = some ("install_dir=" ++ d) := by
  simp only [observableStates, write_config_ops, List.scanl, applyFsOp] at hs
  have hempty : ("" : String) ++ ("install_dir=" ++ d) = "install_dir=" ++ d := by
    simp
  rw [List.mem_cons, List.mem_cons, List.mem_singleton] at hs
  rcases hs with h | h | h
  · exact Or.inl h
  · exact Or.inr (Or.inl h)
  · refine Or.inr (Or.inr ?_)
    rw [h, Option.getD_some, hempty]

/-- Witness for C3's amended claim at a concrete prior state. -/
theorem write_config_observable_states_witness :
    some "" = some "install_dir=/a" ∨ some "" = some "" ∨
      some "" = some ("install_dir=" ++ "/b") :=
  write_config_observable_states (some "install_dir=/a") "/b" (some "")
    (by simp [observableStates, write_config_ops, applyFsOp, List.scanl])

/-- Python `str.isspace` characters relevant to `str.strip()` (ASCII
whitespace; `launcher_config.txt` content is ASCII). -/
def pyIsSpace (c : Char) : Bool :=
  c = ' ' || c = '\t' || c = '\n' || c = '\r' || c = '\x0b' || c = '\x0c'

/-- Python `str.strip()` on a character list: drop whitespace from both
ends. -/
def stripChars (l : List Char) : List Char :=
  ((l.dropWhile pyIsSpace).reverse.dropWhile pyIsSpace).reverse

/-- The first line of the file, as `f.readlines()[0]` produces it (modulo
the trailing newline, which the subsequent `str.strip()` removes anyway). -/
def firstLineChars : List Char → List Char
  | [] => []
  | c :: cs => if c = '\n' then [] else c :: firstLineChars cs

/-- `lines[0].split("=", 1)[1].strip()`: the saved directory parsed out of
the first line of the config content (evaluated only under the
`startswith("install_dir=")` guard, so splitting at the first `=` is
dropping the 12-character prefix). -/
def parsedInstallDir (s : String) : String :=
  String.mk (stripChars ((firstLineChars s.data).drop "install_dir=".length))

/-- `read_config(base_dir)`: reads `base_dir/snowcaller/launcher_config.txt`
(its content is `content`; `none` = file absent), requires the first line
to start with `install_dir=`, strips the remainder, and returns it only
when the saved directory and its `snowcaller` subdirectory both exist
(`pathExists` is the `os.path.exists` oracle); otherwise returns `None`. -/
def read_config : Option String → (String → Bool) → Option String
  | none, _ => none
  | some s, pathExists =>
    if ("install_dir=".data).isPrefixOf (firstLineChars s.data) then
      if pathExists (parsedInstallDir s) && pathExists (parsedInstallDir s ++ "/snowcaller")
      then some (parsedInstallDir s)
      else none
    else none

/-- The exact content `write_config(install_dir)` leaves in the config
file. -/
def write_config_content (install_dir : String) : String :=
  "install_dir=" ++ install_dir

theorem firstLineChars_of_no_newline (l : List Char) (h : '\n' ∉ l) :
    firstLineChars l = l := by
  induction l with
  | nil => rfl
  | cons c cs ih =>
    rw [List.mem_cons, not_or] at h
    have hc : ¬ c = '\n' := fun hc => h.1 hc.symm
    simp [firstLineChars, hc, ih h.2]

theorem isPrefixOf_append (l₁ l₂ : List Char) : l₁.isPrefixOf (l₁ ++ l₂) = true := by
  induction l₁ with
  | nil => simp [List.isPrefixOf]
  | cons c cs ih => simp [List.isPrefixOf, ih]

/-- Counterexample for C4: on a filesystem where the chosen directory was
never created (no path exists), reading back the record just written by
`write_config("/x")` yields `None`, not `/x` — the round-trip is not
verbatim for every path. -/
theorem read_config_roundtrip_cex :
    read_config (some (write_config_content "/x")) (fun _ => false) ≠ some "/x" := by
  decide

/-- Claim C4 as amended: (1) the config round-trip returns the path
verbatim provided the path survives `str.strip()` unchanged, contains no
newline, and both the stored directory and its `snowcaller` subdirectory
exist; (2) a first line not starting with `install_dir=` yields `None`
(absent), not a parse error; (3) a stale or invalid record — stored
directory missing, or `snowcaller` subdirectory missing — yields `None`. -/
theorem config_roundtrip :
    (∀ (p : String) (ex : String → Bool), '\n' ∉ p.data → stripChars p.data = p.data →
        ex p = true → ex (p ++ "/snowcaller") = true →
        read_config (some (write_config_content p)) ex = some p) ∧
      (∀ (s : String) (ex : String → Bool),
        ("install_dir=".data).isPrefixOf (firstLineChars s.data) = false →
        read_config (some s) ex = none) ∧
      (∀ (p : String) (ex : String → Bool), '\n' ∉ p.data → stripChars p.data = p.data →
        (ex p = false ∨ ex (p ++ "/snowcaller") = false) →
        read_config (some (write_config_content p)) ex = none) := by
  have hline : ∀ (p : String), '\n' ∉ p.data →
      firstLineChars (write_config_content p).data = "install_dir=".data ++ p.data := by
    intro p hp
    have hdata : (write_config_content p).data = "install_dir=".data ++ p.data := by
      simp [write_config_content]
    rw [hdata]
    apply firstLineChars_of_no_newline
    intro hmem
    rcases List.mem_append.mp hmem with h | h
    · revert h; decide
    · exact hp h
  have hparsed : ∀ (p : String), '\n' ∉ p.data → stripChars p.data = p.data →
      parsedInstallDir (write_config_content p) = p := by
    intro p hp hstrip
    unfold parsedInstallDir
    rw [hline p hp]
    have hdrop : ("install_dir=".data ++ p.data).drop "install_dir=".length = p.data := by
      have hlen : "install_dir=".length = ("install_dir=".data).length := by decide
      rw [hlen, List.drop_left]
    rw [hdrop, hstrip]
  have hsaved : ∀ (p : String), '\n' ∉ p.data → stripChars p.data = p.data →
      ∀ (ex : String → Bool),
        read_config (some (write_config_content p)) ex =
          if ex p && ex (p ++ "/snowcaller") then some p else none := by
    intro p hp hstrip ex
    show (if ("install_dir=".data).isPrefixOf (firstLineChars (write_config_content p).data) then
        _ else none) = _
    rw [hline p hp, isPrefixOf_append, if_pos rfl, hparsed p hp hstrip]
  refine ⟨?_, ?_, ?_⟩
  · intro p ex hp hstrip h1 h2
    rw [hsaved p hp hstrip ex, h1, h2]
    rfl
  · intro s ex hpre
    show (if ("install_dir=".data).isPrefixOf (firstLineChars s.data) then _ else none) = none
    rw [hpre]
    rfl
  · intro p ex hp hstrip h
    rw [hsaved p hp hstrip ex]
    rcases h with h | h <;> rw [h] <;> simp

/-- Witness for C4's amended claim at concrete inputs: a valid install at
`/x` round-trips, a config starting with `garbage` reads as absent, and a
record pointing at a vanished directory reads as absent. -/
theorem config_roundtrip_witness :
    read_config (some (write_config_content "/x"))
        (fun q => q == "/x" || q == "/x/snowcaller") = some "/x" ∧
      read_config (some "garbage") (fun _ => true) = none ∧
      read_config (some (write_config_content "/gone")) (fun _ => false) = none :=
  ⟨config_roundtrip.1 "/x" (fun q => q == "/x" || q == "/x/snowcaller")
      (by decide) (by decide) (by decide) (by decide),
    config_roundtrip.2.1 "garbage" (fun _ => true) (by decide),
    config_roundtrip.2.2 "/gone" (fun _ => false) (by decide) (by decide) (Or.inl rfl)⟩

/-- One external install action the launcher can perform. -/
inductive Action
  | download (asset : String)
  | runInstaller (asset : String)
  | aptInstall (pkgs : String)
  | pipInstall
  | gitClone
deriving DecidableEq

/-- The environment one installation run executes in: which tools the
dependency probes find (`check_command` results), privilege and
confirmation-dialog answers on Linux, and the outcome of every external
action the run may perform. -/
structure Env where
  os : OsKind
  pythonPresent : Bool
  gitPresent : Bool
  requestsPresent : Bool
  euidRoot : Bool
  confirmPython : Bool
  confirmGit : Bool
  confirmRequests : Bool
  pyResp : Option Response
  pyInstallerOk : Bool
  pyAptOk : Bool
  pyVerify : Bool
  gitResp : Option Response
  gitInstallerOk : Bool
  gitAptOk : Bool
  gitVerify : Bool
  reqAptOk : Bool
  reqPipOk : Bool
  reqVerify : Bool
  snowcallerDirExists : Bool
  cloneOk : Bool
  gamePyExists : Bool
deriving DecidableEq

/-- What one install-step function produces: the progress-bar values it
assigns in order, the external actions it performs, and whether it returns
normally (`ok = true`) or raises. -/
structure StepOut where
  reports : List ℚ
  actions : List Action
  ok : Bool
deriving DecidableEq

/-- `install_python(progress_bar, label)`.  Reports 10, then on Windows
unconditionally downloads the installer (callback maps a download
percentage `p` to `10 + p * 0.2`), runs it silently, and verifies with
`check_command("python --version")`; on Linux it first re-checks
`python3 --version` and returns immediately when present (reporting 30),
else asks for sudo confirmation when not root, runs apt, and verifies.
Ends by reporting 30 on success. -/
def install_python (env : Env) : StepOut :=
  match env.os with
  | .windows =>
    let dl := download_file env.pyResp true
    let dlReports := dl.callbacks.map (fun p => 10 + p * (1/5))
    if dl.ok = false then
      { reports := 10 :: dlReports, actions := [.download "python_installer.exe"], ok := false }
    else if env.pyInstallerOk = false then
      { reports := 10 :: dlReports
        actions := [.download "python_installer.exe", .runInstaller "python_installer.exe"]
        ok := false }
    else if env.pyVerify = false then
      { reports := 10 :: dlReports
        actions := [.download "python_installer.exe", .runInstaller "python_installer.exe"]
        ok := false }
    else
      { reports := (10 :: dlReports) ++ [30]
        actions := [.download "python_installer.exe", .runInstaller "python_installer.exe"]
        ok := true }
  | .linux =>
    if env.pythonPresent then { reports := [10, 30], actions := [], ok := true }
    else if env.euidRoot = false ∧ env.confirmPython = false then
      { reports := [10], actions := [], ok := false }
    else if env.pyAptOk = false then
      { reports := [10], actions := [.aptInstall "python3.11 python3-pip"], ok := false }
    else if env.pyVerify = false then
      { reports := [10], actions := [.aptInstall "python3.11 python3-pip"], ok := false }
    else
      { reports := [10, 30], actions := [.aptInstall "python3.11 python3-pip"], ok := true }

/-- `install_git(progress_bar, label)`.  Reports 40, re-checks
`git --version` first on both OSes and returns immediately when present
(reporting 60); otherwise downloads/runs the silent installer on Windows
(callback `p ↦ 40 + p * 0.2`) or apt-installs on Linux, then verifies.
Ends by reporting 60 on success. -/
def install_git (env : Env) : StepOut :=
  if env.gitPresent then { reports := [40, 60], actions := [], ok := true }
  else
    match env.os with
    | .windows =>
      let dl := download_file env.gitResp true
      let dlReports := dl.callbacks.map (fun p => 40 + p * (1/5))
      if dl.ok = false then
        { reports := 40 :: dlReports, actions := [.download "git_installer.exe"], ok := false }
      else if env.gitInstallerOk = false then
        { reports := 40 :: dlReports
          actions := [.download "git_installer.exe", .runInstaller "git_installer.exe"]
          ok := false }
      else if env.gitVerify = false then
        { reports := 40 :: dlReports
          actions := [.download "git_installer.exe", .runInstaller "git_installer.exe"]
          ok := false }
      else
        { reports := (40 :: dlReports) ++ [60]
          actions := [.download "git_installer.exe", .runInstaller "git_installer.exe"]
          ok := true }
    | .linux =>
      if env.euidRoot = false ∧ env.confirmGit = false then
        { reports := [40], actions := [], ok := false }
      else if env.gitAptOk = false then
        { reports := [40], actions := [.aptInstall "git"], ok := false }
      else if env.gitVerify = false then
        { reports := [40], actions := [.aptInstall "git"], ok := false }
      else
        { reports := [40, 60], actions := [.aptInstall "git"], ok := true }

/-- `install_requests(progress_bar, label)`.  Reports 70, checks whether
the module already imports and returns immediately when it does (reporting
80); otherwise on Linux asks for sudo confirmation when not root, tries
apt, falls back to `pip install --user` when apt fails, and on Windows runs
pip; finally verifies the import.  Ends by reporting 80 on success. -/
def install_requests (env : Env) : StepOut :=
  if env.requestsPresent then { reports := [70, 80], actions := [], ok := true }
  else
    match env.os with
    | .linux =>
      if env.euidRoot = false ∧ env.confirmRequests = false then
        { reports := [70], actions := [], ok := false }
      else if env.reqAptOk then
        if env.reqVerify = false then
          { reports := [70], actions := [.aptInstall "python3-requests"], ok := false }
        else
          { reports := [70, 80], actions := [.aptInstall "python3-requests"], ok := true }
      else if env.reqPipOk = false then
        { reports := [70], actions := [.aptInstall "python3-requests", .pipInstall], ok := false }
      else if env.reqVerify = false then
        { reports := [70], actions := [.aptInstall "python3-requests", .pipInstall], ok := false }
      else
        { reports := [70, 80], actions := [.aptInstall "python3-requests", .pipInstall], ok := true }
    | .windows =>
      if env.reqPipOk = false then
        { reports := [70], actions := [.pipInstall], ok := false }
      else if env.reqVerify = false then
        { reports := [70], actions := [.pipInstall], ok := false }
      else
        { reports := [70, 80], actions := [.pipInstall], ok := true }

/-- `setup_game(progress_bar, label, install_dir)`.  Reports 90, creates
the target directory, clones the repository only when
`install_dir/snowcaller` does not already exist, then verifies `game.py`
is present.  Reports 100 on success. -/
def setup_game (env : Env) : StepOut :=
  if env.snowcallerDirExists then
    if env.gamePyExists then { reports := [90, 100], actions := [], ok := true }
    else { reports := [90], actions := [], ok := false }
  else if env.cloneOk = false then
    { reports := [90], actions := [.gitClone], ok := false }
  else if env.gamePyExists then
    { reports := [90, 100], actions := [.gitClone], ok := true }
  else
    { reports := [90], actions := [.gitClone], ok := false }

/-- The four install steps, in the order the orchestrator drives them. -/
inductive StepName
  | python
  | git
  | requests
  | clone
deriving DecidableEq

/-- What one orchestration run (`run_installation` inside
`LauncherApp.start_installation`) produces: the progress values reported in
order, which install-step functions were invoked, the external actions
performed, whether the run succeeded, and the config record written. -/
structure RunOut where
  reports : List ℚ
  stepsApplied : List StepName
  actions : List Action
  success : Bool
  configWritten : Option String
deriving DecidableEq

/-- The branch structure of `run_installation`: each step runs only when
every earlier one returned normally (an exception aborts the run there),
and the config record is written only after all four complete. -/
def assembleRun (p g rq sg : StepOut) (pSteps gSteps : List StepName)
    (install_dir : String) : RunOut :=
  if p.ok = false then
    { reports := p.reports, stepsApplied := pSteps, actions := p.actions
      success := false, configWritten := none }
  else if g.ok = false then
    { reports := p.reports ++ g.reports, stepsApplied := pSteps ++ gSteps
      actions := p.actions ++ g.actions, success := false, configWritten := none }
  else if rq.ok = false then
    { reports := p.reports ++ g.reports ++ rq.reports
      stepsApplied := pSteps ++ gSteps ++ [.requests]
      actions := p.actions ++ g.actions ++ rq.actions
      success := false, configWritten := none }
  else if sg.ok = false then
    { reports := p.reports ++ g.reports ++ rq.reports ++ sg.reports
      stepsApplied := pSteps ++ gSteps ++ [.requests, .clone]
      actions := p.actions ++ g.actions ++ rq.actions ++ sg.actions
      success := false, configWritten := none }
  else
    { reports := p.reports ++ g.reports ++ rq.reports ++ sg.reports
      stepsApplied := pSteps ++ gSteps ++ [.requests, .clone]
      actions := p.actions ++ g.actions ++ rq.actions ++ sg.actions
      success := true, configWritten := some install_dir }

/-- `run_installation`: probes `python --version` / `python3 --version` and
runs `install_python` only when absent; probes `git --version` and runs
`install_git` only when absent; always runs `install_requests` and
`setup_game` (each does its own probe); on full success writes the config
record pointing at the chosen directory. -/
def run_installation (env : Env) (install_dir : String) : RunOut :=
  assembleRun
    (if env.pythonPresent then { reports := [], actions := [], ok := true }
      else install_python env)
    (if env.gitPresent then { reports := [], actions := [], ok := true }
      else install_git env)
    (install_requests env)
    (setup_game env)
    (if env.pythonPresent then [] else [.python])
    (if env.gitPresent then [] else [.git])
    install_dir

/-- A Linux machine on which every probe fails and every external action
succeeds: the fresh-machine scenario. -/
def freshLinuxEnv : Env :=
  { os := .linux
    pythonPresent := false
    gitPresent := false
    requestsPresent := false
    euidRoot := true
    confirmPython := true
    confirmGit := true
    confirmRequests := true
    pyResp := none
    pyInstallerOk := true
    pyAptOk := true
    pyVerify := true
    gitResp := none
    gitInstallerOk := true
    gitAptOk := true
    gitVerify := true
    reqAptOk := true
    reqPipOk := true
    reqVerify := true
    snowcallerDirExists := false
    cloneOk := true
    gamePyExists := true }

/-- A Linux machine on which every probe already succeeds. -/
def satisfiedLinuxEnv : Env :=
  { freshLinuxEnv with
    pythonPresent := true
    gitPresent := true
    requestsPresent := true
    snowcallerDirExists := true }

/-- A Windows machine that already has Python, with a well-formed installer
download available. -/
def winPythonPresentEnv : Env :=
  { freshLinuxEnv with
    os := .windows
    pythonPresent := true
    pyResp := some ⟨200, some 100, [100], false⟩ }

/-- Claim C6 as amended: for the Git, requests and clone steps — and for
the Python step on Linux — calling the step when its check already holds
performs no external install action; the Python step on Windows is the
exception (see the counterexample): it downloads and runs the installer
unconditionally. -/
theorem apply_noop_when_check_true (env : Env) :
    (env.gitPresent = true → (install_git env).actions = []) ∧
      (env.requestsPresent = true → (install_requests env).actions = []) ∧
      (env.snowcallerDirExists = true → (setup_game env).actions = []) ∧
      (env.os = .linux → env.pythonPresent = true → (install_python env).actions = []) := by
  refine ⟨?_, ?_, ?_, ?_⟩
  · intro h
    simp [install_git, h]
  · intro h
    simp [install_requests, h]
  · intro h
    by_cases hg : env.gamePyExists <;> simp [setup_game, h, hg]
  · intro ho h
    simp [install_python, ho, h]

/-- Witness for C6's amended claim on a machine where every check holds. -/
theorem apply_noop_when_check_true_witness :
    (install_git satisfiedLinuxEnv).actions = [] ∧
      (install_requests satisfiedLinuxEnv).actions = [] ∧
      (setup_game satisfiedLinuxEnv).actions = [] ∧
      (install_python satisfiedLinuxEnv).actions = [] :=
  ⟨(apply_noop_when_check_true satisfiedLinuxEnv).1 rfl,
    (apply_noop_when_check_true satisfiedLinuxEnv).2.1 rfl,
    (apply_noop_when_check_true satisfiedLinuxEnv).2.2.1 rfl,
    (apply_noop_when_check_true satisfiedLinuxEnv).2.2.2 rfl rfl⟩

/-- Counterexample for C6: on Windows with Python already present
(`check_command("python --version")` true), `install_python` still
downloads and runs the installer — `apply` is not a no-op when the step's
check already holds. -/
theorem install_python_windows_reinstalls_cex :
    winPythonPresentEnv.pythonPresent = true ∧
      (install_python winPythonPresentEnv).actions =
        [.download "python_installer.exe", .runInstaller "python_installer.exe"] ∧
      (install_python winPythonPresentEnv).actions ≠ [] := by
  refine ⟨rfl, ?_, ?_⟩ <;> decide

/-- Claim C7: the orchestrator runs the steps strictly sequentially in the
fixed order Python → Git → requests → clone; on a fresh machine (every
probe fails) where every action succeeds, all four step functions execute
in that order, the run succeeds, and the config record pointing at the
chosen directory is written. -/
theorem run_installation_fixed_order (env : Env) (d : String)
    (hp : env.pythonPresent = false) (hg : env.gitPresent = false)
    (_hr : env.requestsPresent = false) (_hs : env.snowcallerDirExists = false)
    (h1 : (install_python env).ok = true) (h2 : (install_git env).ok = true)
    (h3 : (install_requests env).ok = true) (h4 : (setup_game env).ok = true) :
    (run_installation env d).stepsApplied = [.python, .git, .requests, .clone] ∧
      (run_installation env d).success = true ∧
      (run_installation env d).configWritten = some d := by
  unfold run_installation assembleRun
  simp [hp, hg, h1, h2, h3, h4]

/-- Witness for C7: the concrete fresh Linux machine. -/
theorem run_installation_fixed_order_witness :
    (run_installation freshLinuxEnv "/opt/snow").stepsApplied =
        [.python, .git, .requests, .clone] ∧
      (run_installation freshLinuxEnv "/opt/snow").success = true ∧
      (run_installation freshLinuxEnv "/opt/snow").configWritten = some "/opt/snow" :=
  run_installation_fixed_order freshLinuxEnv "/opt/snow"
    rfl rfl rfl rfl (by decide) (by decide) (by decide) (by decide)

/-- A response is bounded when the bytes it actually delivers do not exceed
its declared `content-length`.  (The code never checks this; claim C2 holds
only under this assumption.) -/
def BoundedResp : Option Response → Prop
  | none => True
  | some r => (r.chunks.sum : Int) ≤ totalSize r

theorem prefixSumsFrom_ge (a : Nat) (l : List Nat) :
    ∀ x ∈ prefixSumsFrom a l, a ≤ x := by
  induction l generalizing a with
  | nil => intro x hx; simp [prefixSumsFrom] at hx
  | cons c cs ih =>
    intro x hx
    simp only [prefixSumsFrom, List.mem_cons] at hx
    rcases hx with h | h
    · omega
    · have := ih (a + c) x h
      omega

theorem prefixSumsFrom_le (a : Nat) (l : List Nat) :
    ∀ x ∈ prefixSumsFrom a l, x ≤ a + l.sum := by
  induction l generalizing a with
  | nil => intro x hx; simp [prefixSumsFrom] at hx
  | cons c cs ih =>
    intro x hx
    simp only [prefixSumsFrom, List.mem_cons] at hx
    rcases hx with h | h
    · simp only [List.sum_cons]
      omega
    · have := ih (a + c) x h
      simp only [List.sum_cons]
      omega

theorem prefixSumsFrom_chain (a : Nat) (l : List Nat) :
    List.Chain' (· ≤ ·) (prefixSumsFrom a l) := by
  induction l generalizing a with
  | nil => simp [prefixSumsFrom]
  | cons c cs ih =>
    simp only [prefixSumsFrom]
    refine List.chain'_cons'.mpr ⟨?_, ih (a + c)⟩
    intro y hy
    exact prefixSumsFrom_ge (a + c) cs y (List.mem_of_mem_head? hy)

theorem download_file_callbacks_eq (r : Response) (cb : Bool) :
    (download_file (some r) cb).callbacks =
      if r.status = 200 ∧ cb = true ∧ 0 < totalSize r then
        (prefixSums r.chunks).map (fun (d : Nat) => (d : ℚ) / (totalSize r : ℚ) * 100)
      else [] := by
  unfold download_file
  by_cases hs : r.status ≠ 200
  · have : ¬ (r.status = 200 ∧ cb = true ∧ 0 < totalSize r) := fun h => hs h.1
    simp [hs, this]
  · have hs' : r.status = 200 := not_not.mp hs
    by_cases hc : cb = true ∧ 0 < totalSize r
    · have : r.status = 200 ∧ cb = true ∧ 0 < totalSize r := ⟨hs', hc⟩
      by_cases hm : r.midStreamError <;> simp [hs, hm, hc, this]
    · have : ¬ (r.status = 200 ∧ cb = true ∧ 0 < totalSize r) := fun h => hc h.2
      by_cases hm : r.midStreamError <;> simp [hs, hm, hc, this]

theorem download_callbacks_chain (resp : Option Response) (cb : Bool) :
    List.Chain' (· ≤ ·) (download_file resp cb).callbacks := by
  cases resp with
  | none => simp [download_file]
  | some r =>
    rw [download_file_callbacks_eq]
    split
    · next h =>
      obtain ⟨-, -, ht⟩ := h
      have ht' : (0 : ℚ) < (totalSize r : ℚ) := by exact_mod_cast ht
      rw [List.chain'_map]
      refine (prefixSumsFrom_chain 0 r.chunks).imp ?_
      intro a b hab
      have hab' : (a : ℚ) ≤ (b : ℚ) := by exact_mod_cast hab
      gcongr
    · exact List.chain'_nil

theorem download_callbacks_bounds (resp : Option Response) (cb : Bool)
    (hb : BoundedResp resp) :
    ∀ v ∈ (download_file resp cb).callbacks, 0 ≤ v ∧ v ≤ 100 := by
  cases resp with
  | none => simp [download_file]
  | some r =>
    rw [download_file_callbacks_eq]
    split
    · next h =>
      obtain ⟨-, -, ht⟩ := h
      have ht' : (0 : ℚ) < (totalSize r : ℚ) := by exact_mod_cast ht
      intro v hv
      rcases List.mem_map.mp hv with ⟨d, hd, rfl⟩
      constructor
      · positivity
      · have hsum : d ≤ r.chunks.sum := by
          have := prefixSumsFrom_le 0 r.chunks d hd
          omega
        have hdt : (d : ℚ) ≤ (totalSize r : ℚ) := by
          have h1 : (d : Int) ≤ (r.chunks.sum : Int) := by exact_mod_cast hsum
          have h2 : (d : Int) ≤ totalSize r := le_trans h1 hb
          exact_mod_cast h2
        have h1 : (d : ℚ) / (totalSize r : ℚ) ≤ 1 := (div_le_one ht').mpr hdt
        calc (d : ℚ) / (totalSize r : ℚ) * 100 ≤ 1 * 100 :=
              mul_le_mul_of_nonneg_right h1 (by norm_num)
          _ = 100 := by norm_num
    · simp

theorem chain'_le_cons (a : ℚ) (l : List ℚ) (h : List.Chain' (· ≤ ·) l)
    (ha : ∀ y ∈ l, a ≤ y) : List.Chain' (· ≤ ·) (a :: l) :=
  List.chain'_cons'.mpr ⟨fun y hy => ha y (List.mem_of_mem_head? hy), h⟩

theorem chain'_le_append (l₁ l₂ : List ℚ) (h₁ : List.Chain' (· ≤ ·) l₁)
    (h₂ : List.Chain' (· ≤ ·) l₂) (h : ∀ x ∈ l₁, ∀ y ∈ l₂, x ≤ y) :
    List.Chain' (· ≤ ·) (l₁ ++ l₂) := by
  rw [List.chain'_append]
  exact ⟨h₁, h₂, fun x hx y hy =>
    h x (List.mem_of_mem_getLast? hx) y (List.mem_of_mem_head? hy)⟩

/-- The progress values a download-backed branch assigns: the opening
report `base` followed by the mapped callbacks `base + p * 0.2`. -/
theorem dl_branch (base hi : ℚ) (resp : Option Response) (hb : BoundedResp resp)
    (h0 : 0 ≤ base) (hhi : base + 20 ≤ hi) :
    List.Chain' (· ≤ ·)
        (base :: (download_file resp true).callbacks.map (fun p => base + p * (1/5))) ∧
      (∀ v ∈ base :: (download_file resp true).callbacks.map (fun p => base + p * (1/5)),
        base ≤ v ∧ v ≤ hi) := by
  have hchain := download_callbacks_chain resp true
  have hbounds := download_callbacks_bounds resp true hb
  have hmapb : ∀ v ∈ (download_file resp true).callbacks.map (fun p => base + p * (1/5)),
      base ≤ v ∧ v ≤ hi := by
    intro v hv
    rcases List.mem_map.mp hv with ⟨p, hp, rfl⟩
    obtain ⟨hp0, hp100⟩ := hbounds p hp
    constructor
    · nlinarith
    · nlinarith
  constructor
  · refine chain'_le_cons base _ ?_ ?_
    · rw [List.chain'_map]
      refine hchain.imp ?_
      intro a b hab
      nlinarith
    · intro y hy
      exact (hmapb y hy).1
  · intro v hv
    rcases List.mem_cons.mp hv with h | h
    · subst h
      exact ⟨le_refl _, by linarith⟩
    · exact hmapb v h

/-- A step's progress reports form a non-decreasing sequence confined to
the band `[lo, hi]`. -/
def WeakSeg (lo hi : ℚ) (s : StepOut) : Prop :=
  List.Chain' (· ≤ ·) s.reports ∧ ∀ v ∈ s.reports, lo ≤ v ∧ v ≤ hi

theorem weakSeg_pair (lo hi : ℚ) (acts : List Action) (ok : Bool) (h : lo ≤ hi) :
    WeakSeg lo hi { reports := [lo, hi], actions := acts, ok := ok } := by
  constructor
  · simp [List.chain'_cons, List.chain'_singleton, h]
  · intro v hv
    simp only [List.mem_cons, List.mem_singleton, List.not_mem_nil, or_false] at hv
    rcases hv with rfl | rfl
    · exact ⟨le_refl _, h⟩
    · exact ⟨h, le_refl _⟩

theorem weakSeg_single (lo hi : ℚ) (acts : List Action) (ok : Bool) (h : lo ≤ hi) :
    WeakSeg lo hi { reports := [lo], actions := acts, ok := ok } := by
  constructor
  · simp
  · intro v hv
    simp only [List.mem_singleton] at hv
    subst hv
    exact ⟨le_refl _, h⟩

theorem dl_branch_succ (base hi : ℚ) (resp : Option Response) (hb : BoundedResp resp)
    (h0 : 0 ≤ base) (hhi : base + 20 ≤ hi) :
    List.Chain' (· ≤ ·)
        ((base :: (download_file resp true).callbacks.map (fun p => base + p * (1/5))) ++ [hi]) ∧
      (∀ v ∈ (base :: (download_file resp true).callbacks.map (fun p => base + p * (1/5))) ++ [hi],
        base ≤ v ∧ v ≤ hi) ∧
      ((base :: (download_file resp true).callbacks.map (fun p => base + p * (1/5))) ++ [hi]).getLast?
        = some hi := by
  obtain ⟨hC, hB⟩ := dl_branch base hi resp hb h0 hhi
  refine ⟨?_, ?_, ?_⟩
  · refine chain'_le_append _ _ hC (List.chain'_singleton hi) ?_
    intro x hx y hy
    simp only [List.mem_singleton] at hy
    subst hy
    exact (hB x hx).2
  · intro v hv
    rcases List.mem_append.mp hv with h | h
    · exact hB v h
    · simp only [List.mem_singleton] at h
      subst h
      exact ⟨by linarith, le_refl _⟩
  · exact List.getLast?_concat _

theorem install_python_weakSeg (env : Env) (hb : BoundedResp env.pyResp) :
    WeakSeg 10 30 (install_python env) := by
  obtain ⟨hC, hB⟩ := dl_branch 10 30 env.pyResp hb (by norm_num) (by norm_num)
  obtain ⟨hC2, hB2, -⟩ := dl_branch_succ 10 30 env.pyResp hb (by norm_num) (by norm_num)
  cases henv : env.os with
  | windows =>
    simp only [install_python, henv]
    split_ifs with h1 h2 h3
    · exact ⟨hC, hB⟩
    · exact ⟨hC, hB⟩
    · exact ⟨hC, hB⟩
    · exact ⟨hC2, hB2⟩
  | linux =>
    simp only [install_python, henv]
    split_ifs with h1 h2 h3 h4
    · exact weakSeg_pair 10 30 _ _ (by norm_num)
    · exact weakSeg_single 10 30 _ _ (by norm_num)
    · exact weakSeg_single 10 30 _ _ (by norm_num)
    · exact weakSeg_single 10 30 _ _ (by norm_num)
    · exact weakSeg_pair 10 30 _ _ (by norm_num)

theorem install_git_weakSeg (env : Env) (hb : BoundedResp env.gitResp) :
    WeakSeg 40 60 (install_git env) := by
  obtain ⟨hC, hB⟩ := dl_branch 40 60 env.gitResp hb (by norm_num) (by norm_num)
  obtain ⟨hC2, hB2, -⟩ := dl_branch_succ 40 60 env.gitResp hb (by norm_num) (by norm_num)
  cases henv : env.os with
  | windows =>
    simp only [install_git, henv]
    split_ifs with h0 h1 h2 h3
    · exact weakSeg_pair 40 60 _ _ (by norm_num)
    · exact ⟨hC, hB⟩
    · exact ⟨hC, hB⟩
    · exact ⟨hC, hB⟩
    · exact ⟨hC2, hB2⟩
  | linux =>
    simp only [install_git, henv]
    split_ifs with h0 h1 h2 h3
    · exact weakSeg_pair 40 60 _ _ (by norm_num)
    · exact weakSeg_single 40 60 _ _ (by norm_num)
    · exact weakSeg_single 40 60 _ _ (by norm_num)
    · exact weakSeg_single 40 60 _ _ (by norm_num)
    · exact weakSeg_pair 40 60 _ _ (by norm_num)

theorem install_requests_weakSeg (env : Env) :
    WeakSeg 70 80 (install_requests env) := by
  cases henv : env.os with
  | windows =>
    simp only [install_requests, henv]
    split_ifs with h0 h1 h2
    · exact weakSeg_pair 70 80 _ _ (by norm_num)
    · exact weakSeg_single 70 80 _ _ (by norm_num)
    · exact weakSeg_single 70 80 _ _ (by norm_num)
    · exact weakSeg_pair 70 80 _ _ (by norm_num)
  | linux =>
    simp only [install_requests, henv]
    split_ifs with h0 h1 h2 h3 h4 h5
    · exact weakSeg_pair 70 80 _ _ (by norm_num)
    · exact weakSeg_single 70 80 _ _ (by norm_num)
    · exact weakSeg_single 70 80 _ _ (by norm_num)
    · exact weakSeg_pair 70 80 _ _ (by norm_num)
    · exact weakSeg_single 70 80 _ _ (by norm_num)
    · exact weakSeg_single 70 80 _ _ (by norm_num)
    · exact weakSeg_pair 70 80 _ _ (by norm_num)

theorem setup_game_weakSeg (env : Env) : WeakSeg 90 100 (setup_game env) := by
  unfold setup_game
  split_ifs with h1 h2 h3 h4
  · exact weakSeg_pair 90 100 _ _ (by norm_num)
  · exact weakSeg_single 90 100 _ _ (by norm_num)
  · exact weakSeg_single 90 100 _ _ (by norm_num)
  · exact weakSeg_pair 90 100 _ _ (by norm_num)
  · exact weakSeg_single 90 100 _ _ (by norm_num)

theorem setup_game_ok_last (env : Env) :
    (setup_game env).ok = true → (setup_game env).reports.getLast? = some 100 := by
  unfold setup_game
  split_ifs with h1 h2 h3 h4 <;> intro h <;> first | rfl | simp at h

theorem setup_game_fail_reports (env : Env) :
    (setup_game env).ok = false → (setup_game env).reports = [90] := by
  unfold setup_game
  split_ifs with h1 h2 h3 h4 <;> intro h <;> first | rfl | simp at h

theorem weak_append (lo₁ hi₁ lo₂ hi₂ lo hi : ℚ) (l₁ l₂ : List ℚ)
    (h₁ : List.Chain' (· ≤ ·) l₁) (b₁ : ∀ v ∈ l₁, lo₁ ≤ v ∧ v ≤ hi₁)
    (h₂ : List.Chain' (· ≤ ·) l₂) (b₂ : ∀ v ∈ l₂, lo₂ ≤ v ∧ v ≤ hi₂)
    (hle : hi₁ ≤ lo₂) (hlo1 : lo ≤ lo₁) (hlo2 : lo ≤ lo₂)
    (hhi1 : hi₁ ≤ hi) (hhi2 : hi₂ ≤ hi) :
    List.Chain' (· ≤ ·) (l₁ ++ l₂) ∧ ∀ v ∈ l₁ ++ l₂, lo ≤ v ∧ v ≤ hi := by
  constructor
  · refine chain'_le_append _ _ h₁ h₂ ?_
    intro x hx y hy
    have hx' := (b₁ x hx).2
    have hy' := (b₂ y hy).1
    linarith
  · intro v hv
    rcases List.mem_append.mp hv with h | h
    · obtain ⟨ha, hb'⟩ := b₁ v h
      exact ⟨by linarith, by linarith⟩
    · obtain ⟨ha, hb'⟩ := b₂ v h
      exact ⟨by linarith, by linarith⟩

theorem assembleRun_progress (p g rq sg : StepOut) (pS gS : List StepName) (d : String)
    (hp : WeakSeg 10 30 p) (hg : WeakSeg 40 60 g) (hrq : WeakSeg 70 80 rq)
    (hsg : WeakSeg 90 100 sg)
    (hsgT : sg.ok = true → sg.reports.getLast? = some 100)
    (hsgF : sg.ok = false → sg.reports = [90]) :
    List.Chain' (· ≤ ·) (assembleRun p g rq sg pS gS d).reports ∧
      (∀ v ∈ (assembleRun p g rq sg pS gS d).reports, 0 ≤ v ∧ v ≤ 100) ∧
      ((assembleRun p g rq sg pS gS d).success = true →
        (assembleRun p g rq sg pS gS d).reports.getLast? = some 100) ∧
      ((assembleRun p g rq sg pS gS d).success = false →
        ∀ v ∈ (assembleRun p g rq sg pS gS d).reports, v < 100) := by
  obtain ⟨hpC, hpB⟩ := hp
  obtain ⟨hgC, hgB⟩ := hg
  obtain ⟨hrqC, hrqB⟩ := hrq
  obtain ⟨hsgC, hsgB⟩ := hsg
  unfold assembleRun
  split_ifs with h1 h2 h3 h4
  · refine ⟨hpC, ?_, ?_, ?_⟩
    · intro v hv
      obtain ⟨a, b⟩ := hpB v hv
      exact ⟨by linarith, by linarith⟩
    · intro h
      simp at h
    · intro _ v hv
      obtain ⟨-, b⟩ := hpB v hv
      linarith
  · obtain ⟨hc, hb2⟩ := weak_append 10 30 40 60 10 60 p.reports g.reports hpC hpB hgC hgB
      (by norm_num) (by norm_num) (by norm_num) (by norm_num) (by norm_num)
    refine ⟨hc, ?_, ?_, ?_⟩
    · intro v hv
      obtain ⟨a, b⟩ := hb2 v hv
      exact ⟨by linarith, by linarith⟩
    · intro h
      simp at h
    · intro _ v hv
      obtain ⟨-, b⟩ := hb2 v hv
      linarith
  · obtain ⟨hc1, hb1⟩ := weak_append 10 30 40 60 10 60 p.reports g.reports hpC hpB hgC hgB
      (by norm_num) (by norm_num) (by norm_num) (by norm_num) (by norm_num)
    obtain ⟨hc, hb2⟩ := weak_append 10 60 70 80 10 80 (p.reports ++ g.reports) rq.reports
      hc1 hb1 hrqC hrqB (by norm_num) (by norm_num) (by norm_num) (by norm_num) (by norm_num)
    refine ⟨hc, ?_, ?_, ?_⟩
    · intro v hv
      obtain ⟨a, b⟩ := hb2 v hv
      exact ⟨by linarith, by linarith⟩
    · intro h
      simp at h
    · intro _ v hv
      obtain ⟨-, b⟩ := hb2 v hv
      linarith
  · have hsR := hsgF h4
    rw [hsR]
    have h90C : List.Chain' (· ≤ ·) ([(90 : ℚ)]) := List.chain'_singleton _
    have h90B : ∀ v ∈ [(90 : ℚ)], (90 : ℚ) ≤ v ∧ v ≤ 90 := by
      intro v hv
      simp only [List.mem_singleton] at hv
      subst hv
      exact ⟨le_refl _, le_refl _⟩
    obtain ⟨hc1, hb1⟩ := weak_append 10 30 40 60 10 60 p.reports g.reports hpC hpB hgC hgB
      (by norm_num) (by norm_num) (by norm_num) (by norm_num) (by norm_num)
    obtain ⟨hc2, hb2⟩ := weak_append 10 60 70 80 10 80 (p.reports ++ g.reports) rq.reports
      hc1 hb1 hrqC hrqB (by norm_num) (by norm_num) (by norm_num) (by norm_num) (by norm_num)
    obtain ⟨hc, hb3⟩ := weak_append 10 80 90 90 10 90 (p.reports ++ g.reports ++ rq.reports)
      [90] hc2 hb2 h90C h90B
      (by norm_num) (by norm_num) (by norm_num) (by norm_num) (by norm_num)
    refine ⟨hc, ?_, ?_, ?_⟩
    · intro v hv
      obtain ⟨a, b⟩ := hb3 v hv
      exact ⟨by linarith, by linarith⟩
    · intro h
      simp at h
    · intro _ v hv
      obtain ⟨-, b⟩ := hb3 v hv
      linarith
  · have hsgOk : sg.ok = true := by
      revert h4
      cases sg.ok <;> simp
    have hlast := hsgT hsgOk
    obtain ⟨hc1, hb1⟩ := weak_append 10 30 40 60 10 60 p.reports g.reports hpC hpB hgC hgB
      (by norm_num) (by norm_num) (by norm_num) (by norm_num) (by norm_num)
    obtain ⟨hc2, hb2⟩ := weak_append 10 60 70 80 10 80 (p.reports ++ g.reports) rq.reports
      hc1 hb1 hrqC hrqB (by norm_num) (by norm_num) (by norm_num) (by norm_num) (by norm_num)
    obtain ⟨hc, hb3⟩ := weak_append 10 80 90 100 0 100
      (p.reports ++ g.reports ++ rq.reports) sg.reports hc2 hb2 hsgC hsgB
      (by norm_num) (by norm_num) (by norm_num) (by norm_num) (by norm_num)
    refine ⟨hc, hb3, ?_, ?_⟩
    · intro _
      have hm : (100 : ℚ) ∈ sg.reports.getLast? := by
        rw [Option.mem_def, hlast]
      have hm1 : (100 : ℚ) ∈ (p.reports ++ g.reports ++ rq.reports ++ sg.reports).getLast? :=
        List.mem_getLast?_append_of_mem_getLast? hm
      rwa [Option.mem_def] at hm1
    · intro h
      simp at h

/-- Claim C2 as amended: provided every download delivers at most its
declared `content-length` (the code never checks this), the progress values
one orchestration run reports are monotonically non-decreasing, stay within
0..100, end at exactly 100 on full success, and a failed run never reports
100 (it stops strictly below).  Without the boundedness assumption the
callback percentages can exceed 100 and then regress (see the
counterexample). -/
theorem run_installation_progress_monotone (env : Env) (d : String)
    (hbp : BoundedResp env.pyResp) (hbg : BoundedResp env.gitResp) :
    List.Chain' (· ≤ ·) (run_installation env d).reports ∧
      (∀ v ∈ (run_installation env d).reports, 0 ≤ v ∧ v ≤ 100) ∧
      ((run_installation env d).success = true →
        (run_installation env d).reports.getLast? = some 100) ∧
      ((run_installation env d).success = false →
        ∀ v ∈ (run_installation env d).reports, v < 100) := by
  have hp : WeakSeg 10 30
      (if env.pythonPresent then { reports := [], actions := [], ok := true }
        else install_python env) := by
    split
    · exact ⟨List.chain'_nil, by intro v hv; simp at hv⟩
    · exact install_python_weakSeg env hbp
  have hg : WeakSeg 40 60
      (if env.gitPresent then { reports := [], actions := [], ok := true }
        else install_git env) := by
    split
    · exact ⟨List.chain'_nil, by intro v hv; simp at hv⟩
    · exact install_git_weakSeg env hbg
  unfold run_installation
  exact assembleRun_progress _ _ _ _ _ _ d hp hg (install_requests_weakSeg env)
    (setup_game_weakSeg env) (setup_game_ok_last env) (setup_game_fail_reports env)

/-- Witness for C2's amended claim at a concrete run (everything already
satisfied; the run reports 70, 80, 90, 100 and succeeds). -/
theorem run_installation_progress_monotone_witness :
    List.Chain' (· ≤ ·) (run_installation satisfiedLinuxEnv "/d").reports ∧
      (∀ v ∈ (run_installation satisfiedLinuxEnv "/d").reports, 0 ≤ v ∧ v ≤ 100) ∧
      ((run_installation satisfiedLinuxEnv "/d").success = true →
        (run_installation satisfiedLinuxEnv "/d").reports.getLast? = some 100) ∧
      ((run_installation satisfiedLinuxEnv "/d").success = false →
        ∀ v ∈ (run_installation satisfiedLinuxEnv "/d").reports, v < 100) :=
  run_installation_progress_monotone satisfiedLinuxEnv "/d" trivial trivial

/-- A Windows run whose Python download response declares `content-length`
1 but delivers one 8192-byte chunk. -/
def overrunEnv : Env :=
  { freshLinuxEnv with
    os := .windows
    pyResp := some ⟨200, some 1, [8192], false⟩
    gitPresent := true
    requestsPresent := true
    snowcallerDirExists := true }

/-- Counterexample for C2: when a server responds with fewer declared bytes
than it delivers (content-length 1, one 8192-byte chunk), the run reports
10, 163850, 30, 70, 80, 90, 100 — the sequence regresses from 163850 to 30
and leaves the 0..100 range, refuting the claim as stated. -/
theorem run_installation_progress_overrun_cex :
    (run_installation overrunEnv "/d").reports = [10, 163850, 30, 70, 80, 90, 100] ∧
      ¬ List.Chain' (· ≤ ·) (run_installation overrunEnv "/d").reports ∧
      ¬ (∀ v ∈ (run_installation overrunEnv "/d").reports, v ≤ 100) := by
  have hrep : (run_installation overrunEnv "/d").reports = [10, 163850, 30, 70, 80, 90, 100] := by
    simp only [run_installation, assembleRun, overrunEnv, freshLinuxEnv, install_python,
      install_git, install_requests, setup_game, download_file, totalSize, prefixSums,
      prefixSumsFrom, List.map, Option.getD]
    norm_num
  refine ⟨hrep, ?_, ?_⟩
  · intro h
    rw [hrep] at h
    simp only [List.chain'_cons] at h
    obtain ⟨-, h2, -⟩ := h
    norm_num at h2
  · intro h
    have := h 163850 (by rw [hrep]; simp)
    norm_num at this

end Frosted
